import Mathlib

/-!
Shallow embedding of the PS-RPC client (`client.go` of livekit-psrpc) and proofs
about its selection engine, unary and multi request drivers, and demultiplexer.

Modelling conventions:
* `float32` affinities are modelled as rationals (`ℚ`); the source only
  compares and copies them, so ordinary ordered-field comparison is faithful
  for the non-NaN values the protocol carries.
* Go channels are modelled as bounded buffers (`Chan`); a blocking send into a
  full channel surfaces as an explicit `blocked` outcome.
* The nondeterministic environment of a call (encode success, publish results,
  the claims routed into the claim sink before the selection context is
  cancelled, how the final await ends) is a parameter of each driver model.
* Go `defer` blocks run on every exit path, including panics; the models apply
  the deferred unregister/hook actions on every branch accordingly.
-/

deriving instance DecidableEq for Except

namespace Psrpc

/-- Error kinds of the psrpc error taxonomy used by `client.go`. -/
inductive ErrorCode
  | malformedRequest
  | malformedResponse
  | internal
  | deadlineExceeded
  | unavailable
  | canceled
  | serverReported (wireCode : String)
deriving DecidableEq, Repr

/-- A psrpc error: a code together with a message. -/
structure PsrpcError where
  code : ErrorCode
  msg : String
deriving DecidableEq, Repr

/-- Mirrors `ErrRequestTimedOut = NewError(DeadlineExceeded, errors.New("request timed out"))`. -/
def ErrRequestTimedOut : PsrpcError := ⟨ErrorCode.deadlineExceeded, "request timed out"⟩

/-- Mirrors `ErrNoResponse = NewError(Unavailable, errors.New("no response from servers"))`. -/
def ErrNoResponse : PsrpcError := ⟨ErrorCode.unavailable, "no response from servers"⟩

/-- Mirrors `NewErrorf(Unavailable, "no servers available (received %d responses)", claims)`. -/
def noServersAvailable (n : ℕ) : PsrpcError :=
  ⟨ErrorCode.unavailable, "no servers available (received " ++ toString n ++ " responses)"⟩

/-- Mirrors `newErrorFromResponse(res.Code, res.Error)`: an error rebuilt from the
wire code and message carried by a response envelope. -/
def newErrorFromResponse (code msg : String) : PsrpcError :=
  ⟨ErrorCode.serverReported code, msg⟩

/-- A claim envelope (`internal.ClaimRequest`): request id, server id, affinity. -/
structure ClaimRequest where
  requestId : String
  serverId : String
  affinity : ℚ
deriving DecidableEq, Repr

/-- Selection options (`SelectionOpts`). The two timeouts only decide whether a
one-shot cancellation timer is armed; durations are nanosecond counts. -/
structure SelectionOpts where
  affinityTimeout : ℕ
  shortCircuitTimeout : ℕ
  minimumAffinity : ℚ
  acceptFirstAvailable : Bool
deriving DecidableEq, Repr

/-- The mutable state of the `selectServer` loop: `serverID`, `best`, `shorted`
and the `claims` counter, exactly the four locals of `client.go:205-208`. -/
structure SelSt where
  serverID : String
  best : ℚ
  shorted : Bool
  claims : ℕ
deriving DecidableEq, Repr

/-- Initial selection state: `serverID = ""`, `best = 0`, `shorted = false`, `claims = 0`. -/
def initSelSt : SelSt := ⟨"", 0, false, 0⟩

/-- The condition of `client.go:224-225` deciding whether a claim upgrades the
current best: `(MinimumAffinity > 0 && Affinity >= MinimumAffinity && Affinity > best) ||
(MinimumAffinity <= 0 && Affinity > best)`. -/
def claimQualifies (opts : SelectionOpts) (best : ℚ) (claim : ClaimRequest) : Prop :=
  (0 < opts.minimumAffinity ∧ opts.minimumAffinity ≤ claim.affinity ∧ best < claim.affinity) ∨
    (opts.minimumAffinity ≤ 0 ∧ best < claim.affinity)

instance (opts : SelectionOpts) (best : ℚ) (claim : ClaimRequest) :
    Decidable (claimQualifies opts best claim) :=
  instDecidableOr

/-- The `<-ctx.Done()` branch of `selectServer` (`client.go:212-220`): success if a
best was recorded, `ErrNoResponse` if no claim arrived, otherwise `Unavailable`
with the received-claims count. -/
def selDone (s : SelSt) : Except PsrpcError String :=
  if s.best = 0 then
    if s.claims = 0 then Except.error ErrNoResponse
    else Except.error (noServersAvailable s.claims)
  else Except.ok s.serverID

/-- The `selectServer` loop (`client.go:210-239`) run from state `s` over the list
of claims the demultiplexer delivers before the selection context is cancelled;
the end of the list is the `<-ctx.Done()` event. -/
def selectServerFrom (opts : SelectionOpts) (s : SelSt) : List ClaimRequest → Except PsrpcError String
  | [] => selDone s
  | claim :: rest =>
    if claimQualifies opts s.best claim then
      if opts.acceptFirstAvailable then Except.ok claim.serverId
      else
        selectServerFrom opts
          { serverID := claim.serverId
            best := claim.affinity
            shorted := s.shorted || decide (0 < opts.shortCircuitTimeout)
            claims := s.claims + 1 } rest
    else selectServerFrom opts { s with claims := s.claims + 1 } rest

/-- `selectServer` (`client.go:197`): the loop started from the zero state. -/
def selectServer (opts : SelectionOpts) (claims : List ClaimRequest) : Except PsrpcError String :=
  selectServerFrom opts initSelSt claims

/-- A candidate claim: positive affinity, and at or above the configured floor
when `minimumAffinity > 0`. These are exactly the claims that can ever upgrade
`best` in the loop. -/
def isCandidate (opts : SelectionOpts) (c : ClaimRequest) : Prop :=
  0 < c.affinity ∧ (0 < opts.minimumAffinity → opts.minimumAffinity ≤ c.affinity)

instance (opts : SelectionOpts) (c : ClaimRequest) : Decidable (isCandidate opts c) :=
  instDecidableAnd

/-- Winner according to the specification text of the selection algorithm: scan
the claims in delivery order keeping the first claim whose affinity strictly
exceeds the running best (starting at `b`), subject to the candidate floor. -/
def specWinner (opts : SelectionOpts) : ℚ → List ClaimRequest → Option ClaimRequest
  | _, [] => none
  | b, c :: cs =>
    if isCandidate opts c ∧ b < c.affinity then
      match specWinner opts c.affinity cs with
      | some d => some d
      | none => some c
    else specWinner opts b cs

/-- A Go buffered channel: a capacity and the currently buffered items. -/
structure Chan (α : Type) where
  capacity : ℕ
  buffer : List α
deriving DecidableEq, Repr

/-- Lookup in an association list keyed by request id (a Go `map[string]...`). -/
def lookupKey {α : Type} (l : List (String × α)) (k : String) : Option α :=
  (l.find? (fun p => p.1 == k)).map (fun p => p.2)

/-- Key removal from an association list (Go `delete(m, k)`). -/
def eraseKey {α : Type} (l : List (String × α)) (k : String) : List (String × α) :=
  l.filter (fun p => p.1 != k)

/-- Key membership in an association list. -/
def hasKey {α : Type} (l : List (String × α)) (k : String) : Bool :=
  l.any (fun p => p.1 == k)

/-- An `anypb.Any` payload: its type url and whether its bytes unmarshal
correctly under that type. -/
structure AnyPayload where
  typeUrl : String
  wellFormed : Bool
deriving DecidableEq, Repr

/-- A response envelope (`internal.Response`) with the fields `client.go`
reads: request id, wire error code and text, and the payload. -/
structure ResponseMsg where
  requestId : String
  code : String
  error : String
  response : AnyPayload
deriving DecidableEq, Repr

/-- The correlation tables of `RPCClient`: `claimRequests` and
`responseChannels`, both keyed by request id. -/
structure ClientState where
  claimRequests : List (String × Chan ClaimRequest)
  responseChannels : List (String × Chan ResponseMsg)
deriving DecidableEq, Repr

/-- Result of `res.Response.UnmarshalNew()`: the dynamic message's type url on
success, or an unmarshal error. -/
inductive Unmarshaled
  | ok (typeUrl : String)
  | err
deriving DecidableEq, Repr

/-- `UnmarshalNew` succeeds when the payload's type url is registered in the
proto registry and its bytes are well-formed; the dynamic message then has the
payload's own type url. -/
def unmarshalNew (registry : List String) (a : AnyPayload) : Unmarshaled :=
  if a.typeUrl ∈ registry ∧ a.wellFormed = true then Unmarshaled.ok a.typeUrl else Unmarshaled.err

/-- Outcome of handling one response envelope in the typed drivers.
`panicked` is the Go runtime panic thrown by the unchecked type assertion
`r.(ResponseType)` when the decoded message is not of the expected type. -/
inductive CallResult
  | value (typeUrl : String)
  | failure (e : PsrpcError)
  | panicked
deriving DecidableEq, Repr

/-- The response-handling block shared by `RequestSingle` (client.go:177-188)
and the `RequestMulti` drainer (client.go:304-315): a non-empty wire error is
rebuilt via `newErrorFromResponse`; otherwise the payload is unmarshalled, an
unmarshal error becomes MalformedResponse, and the bare type assertion
`r.(ResponseType)` yields the value only when the decoded type url is the
expected one — on any other concrete type it panics. -/
def handleResponse (registry : List String) (expected : String) (res : ResponseMsg) : CallResult :=
  if res.error ≠ "" then CallResult.failure (newErrorFromResponse res.code res.error)
  else
    match unmarshalNew registry res.response with
    | Unmarshaled.err => CallResult.failure ⟨ErrorCode.malformedResponse, "unmarshal"⟩
    | Unmarshaled.ok t => if t = expected then CallResult.value t else CallResult.panicked

/-- Per-call options produced by `getRequestOpts`. -/
structure RequestOpts where
  timeout : ℕ
  selectionOpts : SelectionOpts
deriving Repr

/-- A request envelope (`internal.Request`) as published on the RPC channel. -/
structure RequestEnvelope where
  requestId : String
  clientId : String
  sentAt : ℤ
  expiry : ℤ
  multi : Bool
deriving DecidableEq, Repr

/-- A message published to the bus by the drivers. -/
inductive PubMsg
  | request (req : RequestEnvelope)
  | claimResponse (requestId serverId : String)
deriving DecidableEq, Repr

/-- How the final `select` of `RequestSingle` ends: a routed response envelope,
or `ctx.Done()` — with a flag recording whether the per-call deadline (rather
than the caller's cancellation) fired, information the code never consults. -/
inductive AwaitEnd
  | gotResponse (res : ResponseMsg)
  | ctxDone (deadlineFired : Bool)
deriving DecidableEq, Repr

/-- The environment of one `RequestSingle` call: whether `anypb.New` succeeds,
the wall clock, the publish outcomes, the claims the demultiplexer routes into
the claim sink before the selection context is cancelled, and how the final
await ends. -/
structure SingleEnv where
  encodeOk : Bool
  now : ℤ
  publishReqErr : Bool
  claims : List ClaimRequest
  publishClaimErr : Bool
  await : AwaitEnd
deriving Repr

/-- One run of the response-hook chain, recording the result and error values
the hooks observe (the named return values `response, err`). -/
structure HookEvent where
  result : Option String
  err : Option PsrpcError
deriving DecidableEq, Repr

/-- What the deferred hook chain of `RequestSingle` observes at defer time;
during a panic unwind both named return values still hold their zero values. -/
def hookEventOf : CallResult → HookEvent
  | CallResult.value t => ⟨some t, none⟩
  | CallResult.failure e => ⟨none, some e⟩
  | CallResult.panicked => ⟨none, none⟩

/-- Everything observable about one `RequestSingle` call: the final client
state, the call result, the bus publishes attempted, and the runs of the
response-hook chain. -/
structure SingleOutcome where
  state : ClientState
  result : CallResult
  published : List PubMsg
  responseHookRuns : List HookEvent
deriving Repr

/-- Registration by `RequestSingle` (client.go:141-147): a claim sink of
capacity `channelSize` and a response sink of capacity 1. -/
def registerSingle (c : ClientState) (rid : String) (channelSize : ℕ) : ClientState :=
  { claimRequests := (rid, ⟨channelSize, []⟩) :: c.claimRequests
    responseChannels := (rid, ⟨1, []⟩) :: c.responseChannels }

/-- The deferred cleanup of `RequestSingle` (client.go:149-154): both entries
are deleted, on every exit path after registration. -/
def unregisterSingle (c : ClientState) (rid : String) : ClientState :=
  { claimRequests := eraseKey c.claimRequests rid
    responseChannels := eraseKey c.responseChannels rid }

/-- Control flow of `RequestSingle` (client.go:97-195) under its environment:
encode, register, publish the request, select a server, publish the claim
response, await the response; the deferred unregister applies to every exit
after registration. Produces the final state, the publishes and the result. -/
def requestSingleCore (cst : ClientState) (channelSize : ℕ) (cid : String)
    (registry : List String) (expected : String) (rid : String) (opts : RequestOpts)
    (env : SingleEnv) : ClientState × List PubMsg × CallResult :=
  if env.encodeOk = false then
    (cst, [], CallResult.failure ⟨ErrorCode.malformedRequest, "encode"⟩)
  else
    let req : RequestEnvelope :=
      { requestId := rid, clientId := cid, sentAt := env.now,
        expiry := env.now + (opts.timeout : ℤ), multi := false }
    let c1 := registerSingle cst rid channelSize
    if env.publishReqErr then
      (unregisterSingle c1 rid, [PubMsg.request req],
        CallResult.failure ⟨ErrorCode.internal, "publish"⟩)
    else
      match selectServer opts.selectionOpts env.claims with
      | Except.error e => (unregisterSingle c1 rid, [PubMsg.request req], CallResult.failure e)
      | Except.ok serverID =>
        if env.publishClaimErr then
          (unregisterSingle c1 rid, [PubMsg.request req, PubMsg.claimResponse rid serverID],
            CallResult.failure ⟨ErrorCode.internal, "publish"⟩)
        else
          match env.await with
          | AwaitEnd.gotResponse res =>
            (unregisterSingle c1 rid, [PubMsg.request req, PubMsg.claimResponse rid serverID],
              handleResponse registry expected res)
          | AwaitEnd.ctxDone _ =>
            (unregisterSingle c1 rid, [PubMsg.request req, PubMsg.claimResponse rid serverID],
              CallResult.failure ErrRequestTimedOut)

/-- `RequestSingle` with its deferred response-hook run (client.go:113-117):
the hook chain runs exactly once, on every exit path, observing the named
return values. -/
def RequestSingle (cst : ClientState) (channelSize : ℕ) (cid : String) (registry : List String)
    (expected : String) (rid : String) (opts : RequestOpts) (env : SingleEnv) : SingleOutcome :=
  let k := requestSingleCore cst channelSize cid registry expected rid opts env
  { state := k.1, result := k.2.2, published := k.2.1, responseHookRuns := [hookEventOf k.2.2] }

/-- Actions of the `RequestMulti` drainer goroutine (client.go:300-331), in
order: for each routed response a hook-chain run then a delivery into the
caller-visible stream; at the timer an unregister followed by closing the
stream; a wrong-typed payload panics the goroutine before its hooks run. -/
inductive DrainAction
  | hookRun (r : CallResult)
  | deliver (r : CallResult)
  | unregister
  | closeStream
  | panicAbort
deriving DecidableEq, Repr

/-- The drainer timer branch deletes only `responseChannels[requestID]`
(client.go:323-326). -/
def unregisterResponse (c : ClientState) (rid : String) : ClientState :=
  { c with responseChannels := eraseKey c.responseChannels rid }

/-- The drainer loop over the responses routed into the sink before the
per-call timer fires, then the timer branch: unregister, close the stream. -/
def drainLoop (registry : List String) (expected : String) (cst : ClientState) (rid : String) :
    List ResponseMsg → ClientState × List DrainAction
  | [] => (unregisterResponse cst rid, [DrainAction.unregister, DrainAction.closeStream])
  | res :: rest =>
    let r := handleResponse registry expected res
    if r = CallResult.panicked then (cst, [DrainAction.panicAbort])
    else
      let k := drainLoop registry expected cst rid rest
      (k.1, DrainAction.hookRun r :: DrainAction.deliver r :: k.2)

/-- Registration by `RequestMulti` (client.go:293-297): only a response sink,
of capacity `channelSize`. -/
def registerMulti (c : ClientState) (rid : String) (channelSize : ℕ) : ClientState :=
  { c with responseChannels := (rid, ⟨channelSize, []⟩) :: c.responseChannels }

/-- The environment of one `RequestMulti` call: whether `anypb.New` succeeds,
the wall clock, the publish outcome, and the responses the demultiplexer
routes into the response sink before the per-call timer fires. -/
structure MultiEnv where
  encodeOk : Bool
  now : ℤ
  publishErr : Bool
  responses : List ResponseMsg
deriving Repr

/-- Everything observable about one `RequestMulti` call, its drainer included:
final client state, the error the call returns (none when the stream is handed
out), publishes, the deferred hook runs of the call itself, whether the
drainer goroutine was started, and the drainer's action trace. -/
structure MultiOutcome where
  state : ClientState
  callErr : Option PsrpcError
  published : List PubMsg
  preHookRuns : List HookEvent
  drainerStarted : Bool
  drainTrace : List DrainAction
deriving Repr

/-- Control flow of `RequestMulti` (client.go:247-339): encode, register the
response sink, start the drainer, publish; the deferred hook run fires only
when the call returns an error (client.go:263-269). The drainer starts before
the publish, so it runs until its timer even when the publish fails. -/
def RequestMulti (cst : ClientState) (channelSize : ℕ) (cid : String) (registry : List String)
    (expected : String) (rid : String) (opts : RequestOpts) (env : MultiEnv) : MultiOutcome :=
  if env.encodeOk = false then
    { state := cst, callErr := some ⟨ErrorCode.malformedRequest, "encode"⟩, published := [],
      preHookRuns := [⟨none, some ⟨ErrorCode.malformedRequest, "encode"⟩⟩],
      drainerStarted := false, drainTrace := [] }
  else
    let req : RequestEnvelope :=
      { requestId := rid, clientId := cid, sentAt := env.now,
        expiry := env.now + (opts.timeout : ℤ), multi := true }
    let c1 := registerMulti cst rid channelSize
    let k := drainLoop registry expected c1 rid env.responses
    if env.publishErr then
      { state := k.1, callErr := some ⟨ErrorCode.internal, "publish"⟩,
        published := [PubMsg.request req],
        preHookRuns := [⟨none, some ⟨ErrorCode.internal, "publish"⟩⟩],
        drainerStarted := true, drainTrace := k.2 }
    else
      { state := k.1, callErr := none, published := [PubMsg.request req],
        preHookRuns := [], drainerStarted := true, drainTrace := k.2 }

/-- Whether a drainer action is a run of the response-hook chain. -/
def DrainAction.isHookRun : DrainAction → Bool
  | DrainAction.hookRun _ => true
  | _ => false

/-- Whether a drainer action is a delivery into the caller-visible stream. -/
def DrainAction.isDeliver : DrainAction → Bool
  | DrainAction.deliver _ => true
  | _ => false

/-- Total number of response-hook chain runs one multi call causes. -/
def MultiOutcome.hookRunCount (m : MultiOutcome) : ℕ :=
  m.preHookRuns.length + (m.drainTrace.filter DrainAction.isHookRun).length

/-- Number of responses delivered on the caller-visible stream. -/
def MultiOutcome.deliveredCount (m : MultiOutcome) : ℕ :=
  (m.drainTrace.filter DrainAction.isDeliver).length

/-- One arrival at the demultiplexer loop of `NewRPCClient` (client.go:47-72). -/
inductive DemuxEvent
  | closeSignal
  | claimArrival (claim : ClaimRequest)
  | responseArrival (res : ResponseMsg)
deriving DecidableEq, Repr

/-- Result of one demultiplexer iteration: the goroutine exits, continues with
an updated table, or is parked on a blocking send into a full sink. -/
inductive DemuxStep
  | exited
  | continued (st : ClientState)
  | blockedOnSink (rid : String)
deriving DecidableEq, Repr

/-- A send on a buffered Go channel completes only when a buffer slot is free;
`none` means the sender blocks. -/
def chanSend {α : Type} (ch : Chan α) (m : α) : Option (Chan α) :=
  if ch.buffer.length < ch.capacity then some { ch with buffer := ch.buffer ++ [m] } else none

/-- Replace the sink stored under a key. -/
def setKey {α : Type} (l : List (String × α)) (k : String) (v : α) : List (String × α) :=
  l.map (fun p => if p.1 == k then (k, v) else p)

/-- One iteration of the demultiplexer: a claim or response envelope is looked
up in the correlation table and sent into the registered sink with a plain
blocking channel send (`claimChan <- claim`, `resChan <- res` at client.go:60
and client.go:68); an envelope with no registered sink is discarded. -/
def demuxStep (st : ClientState) (ev : DemuxEvent) : DemuxStep :=
  match ev with
  | DemuxEvent.closeSignal => DemuxStep.exited
  | DemuxEvent.claimArrival claim =>
    match lookupKey st.claimRequests claim.requestId with
    | none => DemuxStep.continued st
    | some ch =>
      match chanSend ch claim with
      | some ch2 =>
        DemuxStep.continued
          { st with claimRequests := setKey st.claimRequests claim.requestId ch2 }
      | none => DemuxStep.blockedOnSink claim.requestId
  | DemuxEvent.responseArrival res =>
    match lookupKey st.responseChannels res.requestId with
    | none => DemuxStep.continued st
    | some ch =>
      match chanSend ch res with
      | some ch2 =>
        DemuxStep.continued
          { st with responseChannels := setKey st.responseChannels res.requestId ch2 }
      | none => DemuxStep.blockedOnSink res.requestId

-- scratch checks, removed in the final file
example : selectServer ⟨0, 0, 0, false⟩
    [⟨"r", "a", 2⟩, ⟨"r", "b", 9⟩, ⟨"r", "c", 7⟩] = Except.ok "b" := by decide

example : selectServer ⟨0, 0, 5, false⟩
    [⟨"r", "a", 1⟩, ⟨"r", "b", 1⟩] = Except.error (noServersAvailable 2) := by decide

example : selectServer ⟨0, 0, 0, false⟩ [] = Except.error ErrNoResponse := rfl

example : selectServer ⟨0, 0, 0, true⟩
    [⟨"r", "z", 0⟩, ⟨"r", "a", 1⟩, ⟨"r", "b", 9⟩] = Except.ok "a" := by decide

/-- When the running best is non-negative, the loop condition is equivalent to
being a candidate with affinity strictly above the running best. -/
lemma claimQualifies_iff (opts : SelectionOpts) (b : ℚ) (c : ClaimRequest) (hb : 0 ≤ b) :
    claimQualifies opts b c ↔ isCandidate opts c ∧ b < c.affinity := by
  unfold claimQualifies isCandidate
  constructor
  · rintro (⟨_, hge, hlt⟩ | ⟨hm, hlt⟩)
    · exact ⟨⟨lt_of_le_of_lt hb hlt, fun _ => hge⟩, hlt⟩
    · exact ⟨⟨lt_of_le_of_lt hb hlt, fun h => absurd h (not_lt.mpr hm)⟩, hlt⟩
  · rintro ⟨⟨_, himp⟩, hlt⟩
    by_cases hm : 0 < opts.minimumAffinity
    · exact Or.inl ⟨hm, himp hm, hlt⟩
    · exact Or.inr ⟨le_of_not_lt hm, hlt⟩

/-- If a best was recorded, the done branch returns it. -/
lemma selDone_of_pos (s : SelSt) (h : 0 < s.best) : selDone s = Except.ok s.serverID := by
  unfold selDone
  rw [if_neg (ne_of_gt h)]

/-- Claims that fail the loop condition leave everything except the claims
counter unchanged. -/
lemma selectServerFrom_skip (opts : SelectionOpts) (sid : String) (b : ℚ) (sh : Bool) :
    ∀ (l tl : List ClaimRequest) (n : ℕ), (∀ c ∈ l, ¬ claimQualifies opts b c) →
      selectServerFrom opts ⟨sid, b, sh, n⟩ (l ++ tl) =
        selectServerFrom opts ⟨sid, b, sh, n + l.length⟩ tl := by
  intro l
  induction l with
  | nil => intro tl n _; simp
  | cons d l ih =>
    intro tl n h
    have hd : ¬ claimQualifies opts b d := h d (List.mem_cons_self d l)
    have hrest : ∀ c ∈ l, ¬ claimQualifies opts b c := fun c hc => h c (List.mem_cons_of_mem d hc)
    simp only [List.cons_append, selectServerFrom, if_neg hd, List.append_eq]
    rw [ih tl (n + 1) hrest, List.length_cons,
      show n + 1 + l.length = n + (l.length + 1) by omega]

/-- The loop from any reachable state computes the `specWinner` scan: it returns
the winner's server id when one exists and falls into the done branch otherwise. -/
lemma selectServerFrom_eq_specWinner (opts : SelectionOpts) (hAF : opts.acceptFirstAvailable = false) :
    ∀ (cs : List ClaimRequest) (sid : String) (b : ℚ) (sh : Bool) (n : ℕ), 0 ≤ b →
      selectServerFrom opts ⟨sid, b, sh, n⟩ cs =
        (match specWinner opts b cs with
          | some d => Except.ok d.serverId
          | none => selDone ⟨sid, b, sh, n + cs.length⟩) := by
  intro cs
  induction cs with
  | nil => intro sid b sh n _; simp [specWinner, selectServerFrom]
  | cons c cs ih =>
    intro sid b sh n hb
    by_cases hq : claimQualifies opts b c
    · have hcand := (claimQualifies_iff opts b c hb).mp hq
      have hb' : (0 : ℚ) ≤ c.affinity := le_of_lt (lt_of_le_of_lt hb hcand.2)
      simp only [selectServerFrom, if_pos hq, hAF, if_false]
      rw [ih c.serverId c.affinity (sh || decide (0 < opts.shortCircuitTimeout)) (n + 1) hb']
      simp only [specWinner, if_pos hcand]
      cases hinner : specWinner opts c.affinity cs with
      | some d => simp
      | none => simpa using selDone_of_pos ⟨c.serverId, c.affinity,
          sh || decide (0 < opts.shortCircuitTimeout), n + 1 + cs.length⟩ hcand.1.1
    · have hcand : ¬ (isCandidate opts c ∧ b < c.affinity) :=
        fun hx => hq ((claimQualifies_iff opts b c hb).mpr hx)
      simp only [selectServerFrom, if_neg hq]
      rw [ih sid b sh (n + 1) hb]
      simp only [specWinner, if_neg hcand, List.length_cons,
        show n + 1 + cs.length = n + (cs.length + 1) by omega]

/-- The spec-side scan finds no winner exactly when no claim is a candidate
strictly above the starting threshold. -/
lemma specWinner_eq_none_iff (opts : SelectionOpts) :
    ∀ (cs : List ClaimRequest) (b : ℚ),
      specWinner opts b cs = none ↔ ∀ c ∈ cs, ¬ (isCandidate opts c ∧ b < c.affinity) := by
  intro cs
  induction cs with
  | nil => intro b; simp [specWinner]
  | cons c cs ih =>
    intro b
    by_cases hc : isCandidate opts c ∧ b < c.affinity
    · simp only [specWinner, if_pos hc]
      constructor
      · intro h
        cases hinner : specWinner opts c.affinity cs <;> rw [hinner] at h <;> cases h
      · intro h
        exact absurd hc (h c (List.mem_cons_self c cs))
    · simp only [specWinner, if_neg hc]
      rw [ih b]
      constructor
      · intro h d hd
        rcases List.mem_cons.mp hd with rfl | hd'
        · exact hc
        · exact h d hd'
      · intro h d hd
        exact h d (List.mem_cons_of_mem c hd)

/-- Characterization of the spec-side winner: it is a candidate strictly above
the threshold, it dominates every candidate above the threshold, and every
earlier candidate has strictly smaller affinity. -/
lemma specWinner_spec (opts : SelectionOpts) :
    ∀ (cs : List ClaimRequest) (b : ℚ) (d : ClaimRequest),
      specWinner opts b cs = some d →
      ∃ l1 l2, cs = l1 ++ d :: l2 ∧ isCandidate opts d ∧ b < d.affinity ∧
        (∀ c ∈ cs, isCandidate opts c → b < c.affinity → c.affinity ≤ d.affinity) ∧
        (∀ c ∈ l1, isCandidate opts c → c.affinity < d.affinity) := by
  intro cs
  induction cs with
  | nil => intro b d h; simp [specWinner] at h
  | cons c cs ih =>
    intro b d h
    by_cases hc : isCandidate opts c ∧ b < c.affinity
    · simp only [specWinner, if_pos hc] at h
      cases hinner : specWinner opts c.affinity cs with
      | some w =>
        rw [hinner] at h
        have hwd : w = d := by simpa using h
        subst hwd
        obtain ⟨l1, l2, hcs, hdc, hlt, hdom, hpref⟩ := ih c.affinity w hinner
        refine ⟨c :: l1, l2, by rw [hcs, List.cons_append], hdc, lt_trans hc.2 hlt, ?_, ?_⟩
        · intro x hx hxc hbx
          rcases List.mem_cons.mp hx with rfl | hx'
          · exact le_of_lt hlt
          · by_cases hcx : c.affinity < x.affinity
            · exact hdom x hx' hxc hcx
            · exact le_trans (le_of_not_lt hcx) (le_of_lt hlt)
        · intro x hx hxc
          rcases List.mem_cons.mp hx with rfl | hx'
          · exact hlt
          · exact hpref x hx' hxc
      | none =>
        rw [hinner] at h
        have hcd : c = d := by simpa using h
        subst hcd
        have hnone := (specWinner_eq_none_iff opts cs c.affinity).mp hinner
        refine ⟨[], cs, rfl, hc.1, hc.2, ?_, by simp⟩
        intro x hx hxc _
        rcases List.mem_cons.mp hx with rfl | hx'
        · exact le_refl _
        · by_cases hcx : c.affinity < x.affinity
          · exact absurd (And.intro hxc hcx) (hnone x hx')
          · exact le_of_not_lt hcx
    · simp only [specWinner, if_neg hc] at h
      obtain ⟨l1, l2, hcs, hdc, hlt, hdom, hpref⟩ := ih b d h
      refine ⟨c :: l1, l2, by rw [hcs, List.cons_append], hdc, hlt, ?_, ?_⟩
      · intro x hx hxc hbx
        rcases List.mem_cons.mp hx with rfl | hx'
        · exact absurd (And.intro hxc hbx) hc
        · exact hdom x hx' hxc hbx
      · intro x hx hxc
        rcases List.mem_cons.mp hx with rfl | hx'
        · by_cases hbx : b < x.affinity
          · exact absurd (And.intro hxc hbx) hc
          · exact lt_of_le_of_lt (le_of_not_lt hbx) hlt
        · exact hpref x hx' hxc

/-- C1: with accept-first-available unset, `selectServer` over the claims
delivered in the selection window returns the server id of the claim with the
strictly highest affinity among the candidates (positive affinity, and at least
`minimumAffinity` when that floor is positive); every candidate delivered before
the winner has strictly smaller affinity, so on an affinity tie the
earlier-delivered claim's server is retained and never replaced. -/
theorem selectServer_returns_highest_affinity (opts : SelectionOpts) (cs : List ClaimRequest)
    (hAF : opts.acceptFirstAvailable = false)
    (hex : ∃ c ∈ cs, isCandidate opts c) :
    ∃ l1 w l2, cs = l1 ++ w :: l2 ∧ isCandidate opts w ∧
      selectServer opts cs = Except.ok w.serverId ∧
      (∀ c ∈ cs, isCandidate opts c → c.affinity ≤ w.affinity) ∧
      (∀ c ∈ l1, isCandidate opts c → c.affinity < w.affinity) := by
  have heq := selectServerFrom_eq_specWinner opts hAF cs "" 0 false 0 (le_refl 0)
  cases hw : specWinner opts 0 cs with
  | none =>
    obtain ⟨c, hcm, hcand⟩ := hex
    exact absurd (And.intro hcand hcand.1) ((specWinner_eq_none_iff opts cs 0).mp hw c hcm)
  | some w =>
    obtain ⟨l1, l2, hcs, hwc, _, hdom, hpref⟩ := specWinner_spec opts cs 0 w hw
    refine ⟨l1, w, l2, hcs, hwc, ?_, ?_, hpref⟩
    · unfold selectServer initSelSt
      rw [heq, hw]
    · intro c hcm hc
      exact hdom c hcm hc hc.1

/-- Witness for C1: window with affinities 2, 9, 9, 7 and no floor; the first
affinity-9 claim ("b") is the winner. -/
theorem selectServer_returns_highest_affinity_witness :
    ∃ l1 w l2,
      ([⟨"r", "a", 2⟩, ⟨"r", "b", 9⟩, ⟨"r", "c", 9⟩, ⟨"r", "d", 7⟩] : List ClaimRequest) =
        l1 ++ w :: l2 ∧
      isCandidate ⟨0, 0, 0, false⟩ w ∧
      selectServer ⟨0, 0, 0, false⟩
          [⟨"r", "a", 2⟩, ⟨"r", "b", 9⟩, ⟨"r", "c", 9⟩, ⟨"r", "d", 7⟩] = Except.ok w.serverId ∧
      (∀ c ∈ ([⟨"r", "a", 2⟩, ⟨"r", "b", 9⟩, ⟨"r", "c", 9⟩, ⟨"r", "d", 7⟩] : List ClaimRequest),
          isCandidate ⟨0, 0, 0, false⟩ c → c.affinity ≤ w.affinity) ∧
      (∀ c ∈ l1, isCandidate ⟨0, 0, 0, false⟩ c → c.affinity < w.affinity) :=
  selectServer_returns_highest_affinity ⟨0, 0, 0, false⟩
    [⟨"r", "a", 2⟩, ⟨"r", "b", 9⟩, ⟨"r", "c", 9⟩, ⟨"r", "d", 7⟩] rfl
    ⟨⟨"r", "b", 9⟩, by decide, by decide⟩

/-- C2: when the selection window ends, a recorded best server is returned with
no error; with no candidate at all the call fails, with `ErrNoResponse` when
zero claims were received and otherwise with the Unavailable error counting
every received claim, including those below the minimum-affinity floor. -/
theorem selectServer_window_end (opts : SelectionOpts) (cs : List ClaimRequest) :
    (opts.acceptFirstAvailable = false → (∃ c ∈ cs, isCandidate opts c) →
        ∃ sid, selectServer opts cs = Except.ok sid) ∧
    ((∀ c ∈ cs, ¬ isCandidate opts c) →
        selectServer opts cs =
          Except.error (if cs.length = 0 then ErrNoResponse else noServersAvailable cs.length)) := by
  constructor
  · intro hAF hex
    have heq := selectServerFrom_eq_specWinner opts hAF cs "" 0 false 0 (le_refl 0)
    cases hw : specWinner opts 0 cs with
    | none =>
      obtain ⟨c, hcm, hcand⟩ := hex
      exact absurd (And.intro hcand hcand.1) ((specWinner_eq_none_iff opts cs 0).mp hw c hcm)
    | some w =>
      refine ⟨w.serverId, ?_⟩
      unfold selectServer initSelSt
      rw [heq, hw]
  · intro hno
    have hq : ∀ c ∈ cs, ¬ claimQualifies opts 0 c := fun c hc hqc =>
      hno c hc ((claimQualifies_iff opts 0 c (le_refl 0)).mp hqc).1
    have hskip := selectServerFrom_skip opts "" 0 false cs [] 0 hq
    rw [List.append_nil] at hskip
    unfold selectServer initSelSt
    rw [hskip]
    by_cases hlen : cs.length = 0 <;> simp [selectServerFrom, selDone, hlen]

/-- Witness for C2: a recorded best is returned; with two claims below the
floor the result is the Unavailable error whose message counts both claims. -/
theorem selectServer_window_end_witness :
    (∃ sid, selectServer ⟨0, 0, 0, false⟩ [⟨"r", "a", 2⟩] = Except.ok sid) ∧
    selectServer ⟨0, 0, 5, false⟩ [⟨"r", "a", 1⟩, ⟨"r", "b", 1⟩] =
      Except.error ⟨ErrorCode.unavailable, "no servers available (received 2 responses)"⟩ :=
  ⟨(selectServer_window_end ⟨0, 0, 0, false⟩ [⟨"r", "a", 2⟩]).1 rfl
      ⟨⟨"r", "a", 2⟩, by decide, by decide⟩,
    by
      have h := (selectServer_window_end ⟨0, 0, 5, false⟩ [⟨"r", "a", 1⟩, ⟨"r", "b", 1⟩]).2
        (by decide)
      simpa [noServersAvailable] using h⟩

/-- C3: with accept-first-available set, `selectServer` returns the server id of
the first candidate claim immediately, whatever claims may follow; claims
delivered earlier that are not candidates (for example affinity 0) do not
trigger the early return. -/
theorem selectServer_accept_first (opts : SelectionOpts) (l1 : List ClaimRequest)
    (w : ClaimRequest) (l2 : List ClaimRequest)
    (hAF : opts.acceptFirstAvailable = true)
    (hpre : ∀ c ∈ l1, ¬ isCandidate opts c)
    (hw : isCandidate opts w) :
    selectServer opts (l1 ++ w :: l2) = Except.ok w.serverId := by
  have hq : ∀ c ∈ l1, ¬ claimQualifies opts 0 c := fun c hc hqc =>
    hpre c hc ((claimQualifies_iff opts 0 c (le_refl 0)).mp hqc).1
  unfold selectServer initSelSt
  rw [selectServerFrom_skip opts "" 0 false l1 (w :: l2) 0 hq]
  have hqw : claimQualifies opts 0 w := (claimQualifies_iff opts 0 w (le_refl 0)).mpr ⟨hw, hw.1⟩
  simp [selectServerFrom, hqw, hAF]

/-- Witness for C3: an affinity-0 claim does not trigger the early return; the
first positive-affinity claim "a" wins even though a higher claim follows. -/
theorem selectServer_accept_first_witness :
    selectServer ⟨0, 0, 0, true⟩ [⟨"r", "z", 0⟩, ⟨"r", "a", 1⟩, ⟨"r", "b", 9⟩] = Except.ok "a" :=
  selectServer_accept_first ⟨0, 0, 0, true⟩ [⟨"r", "z", 0⟩] ⟨"r", "a", 1⟩ [⟨"r", "b", 9⟩] rfl
    (by decide) (by decide)

/-- Deleting a key removes every entry under it. -/
@[simp]
lemma hasKey_eraseKey {α : Type} (l : List (String × α)) (k : String) :
    hasKey (eraseKey l k) k = false := by
  unfold hasKey eraseKey
  rw [List.any_eq_false]
  intro p hp
  obtain ⟨-, hne⟩ := List.mem_filter.mp hp
  simp only [bne_iff_ne, ne_eq] at hne
  simp only [beq_iff_eq]
  exact hne

/-- In the drainer trace every hook run is paired with one delivery, panic or
no panic: the counts agree. -/
lemma drainLoop_hook_eq_deliver (registry : List String) (expected : String)
    (cst : ClientState) (rid : String) :
    ∀ rs : List ResponseMsg,
      ((drainLoop registry expected cst rid rs).2.filter DrainAction.isHookRun).length =
        ((drainLoop registry expected cst rid rs).2.filter DrainAction.isDeliver).length := by
  intro rs
  induction rs with
  | nil => rfl
  | cons res rest ih =>
    by_cases hp : handleResponse registry expected res = CallResult.panicked
    · simp [drainLoop, hp, DrainAction.isHookRun, DrainAction.isDeliver]
    · simp [drainLoop, hp, DrainAction.isHookRun, DrainAction.isDeliver, ih]

/-- When no routed response panics, the drainer performs its deliveries and
then exactly the unregister-close pair, and its final state has the response
entry erased. -/
lemma drainLoop_no_panic (registry : List String) (expected : String) (cst : ClientState)
    (rid : String) :
    ∀ rs : List ResponseMsg,
      (∀ res ∈ rs, handleResponse registry expected res ≠ CallResult.panicked) →
      (drainLoop registry expected cst rid rs).1 = unregisterResponse cst rid ∧
      ∃ pre, (drainLoop registry expected cst rid rs).2 =
          pre ++ [DrainAction.unregister, DrainAction.closeStream] ∧
        ∀ a ∈ pre, a.isHookRun = true ∨ a.isDeliver = true := by
  intro rs
  induction rs with
  | nil => exact fun _ => ⟨rfl, [], rfl, by simp⟩
  | cons res rest ih =>
    intro h
    have hp : handleResponse registry expected res ≠ CallResult.panicked :=
      h res (List.mem_cons_self res rest)
    have hrest := ih fun r hr => h r (List.mem_cons_of_mem res hr)
    obtain ⟨hst, pre, htr, hmem⟩ := hrest
    refine ⟨?_, DrainAction.hookRun (handleResponse registry expected res) ::
      DrainAction.deliver (handleResponse registry expected res) :: pre, ?_, ?_⟩
    · simp [drainLoop, hp, hst]
    · simp [drainLoop, hp, htr]
    · intro a ha
      rcases List.mem_cons.mp ha with rfl | ha'
      · exact Or.inl rfl
      rcases List.mem_cons.mp ha' with rfl | ha''
      · exact Or.inr rfl
      · exact hmem a ha''

/-- C4: after any `RequestSingle` call on a fresh request id — success, encode
failure, publish failure, selection failure, claim-response publish failure,
or timeout — neither the claim-request map nor the response-channel map
retains an entry for that id. -/
theorem requestSingle_cleans_correlation_table (cst : ClientState) (channelSize : ℕ)
    (cid : String) (registry : List String) (expected : String) (rid : String)
    (opts : RequestOpts) (env : SingleEnv)
    (hc : hasKey cst.claimRequests rid = false)
    (hr : hasKey cst.responseChannels rid = false) :
    hasKey (RequestSingle cst channelSize cid registry expected rid
        opts env).state.claimRequests rid = false ∧
    hasKey (RequestSingle cst channelSize cid registry expected rid
        opts env).state.responseChannels rid = false := by
  unfold RequestSingle requestSingleCore
  cases henc : env.encodeOk with
  | false => simpa using ⟨hc, hr⟩
  | true =>
    cases hpub : env.publishReqErr with
    | true => simp [unregisterSingle]
    | false =>
      cases hsel : selectServer opts.selectionOpts env.claims with
      | error e => simp [unregisterSingle]
      | ok sid =>
        cases hpub2 : env.publishClaimErr with
        | true => simp [unregisterSingle]
        | false =>
          cases hawait : env.await with
          | gotResponse res => simp [unregisterSingle]
          | ctxDone b => simp [unregisterSingle]

/-- Witness for C4 on the success path at a concrete call. -/
theorem requestSingle_cleans_correlation_table_witness :
    hasKey (RequestSingle ⟨[], []⟩ 4 "cl" ["pkg.A"] "pkg.A" "rid" ⟨1000, ⟨0, 0, 0, false⟩⟩
        ⟨true, 0, false, [⟨"rid", "s1", 1⟩], false,
          AwaitEnd.gotResponse ⟨"rid", "", "", ⟨"pkg.A", true⟩⟩⟩).state.claimRequests "rid" =
      false ∧
    hasKey (RequestSingle ⟨[], []⟩ 4 "cl" ["pkg.A"] "pkg.A" "rid" ⟨1000, ⟨0, 0, 0, false⟩⟩
        ⟨true, 0, false, [⟨"rid", "s1", 1⟩], false,
          AwaitEnd.gotResponse ⟨"rid", "", "", ⟨"pkg.A", true⟩⟩⟩).state.responseChannels "rid" =
      false :=
  requestSingle_cleans_correlation_table ⟨[], []⟩ 4 "cl" ["pkg.A"] "pkg.A" "rid"
    ⟨1000, ⟨0, 0, 0, false⟩⟩
    ⟨true, 0, false, [⟨"rid", "s1", 1⟩], false,
      AwaitEnd.gotResponse ⟨"rid", "", "", ⟨"pkg.A", true⟩⟩⟩ rfl rfl

/-- C5: the response-hook chain runs exactly once per `RequestSingle` call, on
success and on every failure, pre-publish failures such as MalformedRequest
included; a `RequestMulti` call causes one hook-chain run per response
delivered on the stream, plus exactly one run — observing a nil result and the
error — precisely when the call itself returns an error. -/
theorem responseHooks_run_exactly_once (cst cstm : ClientState) (n nm : ℕ) (cid cidm : String)
    (registry registrym : List String) (expected expectedm : String) (rid ridm : String)
    (opts optsm : RequestOpts) (env : SingleEnv) (envm : MultiEnv) :
    (RequestSingle cst n cid registry expected rid opts env).responseHookRuns.length = 1 ∧
    (RequestMulti cstm nm cidm registrym expectedm ridm optsm envm).hookRunCount =
      (RequestMulti cstm nm cidm registrym expectedm ridm optsm envm).deliveredCount +
        (if (RequestMulti cstm nm cidm registrym expectedm ridm optsm envm).callErr.isSome
          then 1 else 0) ∧
    (RequestMulti cstm nm cidm registrym expectedm ridm optsm envm).preHookRuns =
      Option.elim (RequestMulti cstm nm cidm registrym expectedm ridm optsm envm).callErr []
        (fun e => [⟨none, some e⟩]) := by
  refine ⟨rfl, ?_, ?_⟩
  · unfold RequestMulti MultiOutcome.hookRunCount MultiOutcome.deliveredCount
    cases henc : envm.encodeOk with
    | false => simp
    | true =>
      have h := drainLoop_hook_eq_deliver registrym expectedm
        (registerMulti cstm ridm nm) ridm envm.responses
      cases hpub : envm.publishErr with
      | true => simp only []; simp [h]; omega
      | false => simp only []; simp [h]
  · unfold RequestMulti
    cases henc : envm.encodeOk with
    | false => simp
    | true => cases hpub : envm.publishErr <;> simp

/-- C8: for a `RequestMulti` call whose payload encodes and whose routed
responses are all well-typed, the drainer's trace is its deliveries followed
by exactly one unregister immediately followed by the single stream close —
the table entry is removed exactly when the caller-visible stream closes — and
afterwards the correlation table holds no entry for the request id. -/
theorem requestMulti_unregisters_exactly_at_close (cst : ClientState) (channelSize : ℕ)
    (cid : String) (registry : List String) (expected : String) (rid : String)
    (opts : RequestOpts) (env : MultiEnv)
    (henc : env.encodeOk = true)
    (hnp : ∀ res ∈ env.responses, handleResponse registry expected res ≠ CallResult.panicked) :
    ∃ pre, (RequestMulti cst channelSize cid registry expected rid
        opts env).drainTrace = pre ++ [DrainAction.unregister, DrainAction.closeStream] ∧
      DrainAction.unregister ∉ pre ∧ DrainAction.closeStream ∉ pre ∧
      hasKey (RequestMulti cst channelSize cid registry expected rid
        opts env).state.responseChannels rid = false := by
  obtain ⟨hst, pre, htr, hmem⟩ := drainLoop_no_panic registry expected
    (registerMulti cst rid channelSize) rid env.responses hnp
  have hnu : DrainAction.unregister ∉ pre := by
    intro hin
    rcases hmem DrainAction.unregister hin with h | h <;> cases h
  have hncl : DrainAction.closeStream ∉ pre := by
    intro hin
    rcases hmem DrainAction.closeStream hin with h | h <;> cases h
  refine ⟨pre, ?_, hnu, hncl, ?_⟩
  · unfold RequestMulti
    cases hpub : env.publishErr <;> simp [henc, htr]
  · unfold RequestMulti
    cases hpub : env.publishErr <;> simp [henc, hst, unregisterResponse]

/-- Witness for C8 at a concrete call with two well-typed routed responses. -/
theorem requestMulti_unregisters_exactly_at_close_witness :
    ∃ pre, (RequestMulti ⟨[], []⟩ 4 "cl" ["pkg.A"] "pkg.A" "rid" ⟨1000, ⟨0, 0, 0, false⟩⟩
        ⟨true, 0, false, [⟨"rid", "", "", ⟨"pkg.A", true⟩⟩, ⟨"rid", "", "", ⟨"pkg.A", true⟩⟩]⟩
        ).drainTrace = pre ++ [DrainAction.unregister, DrainAction.closeStream] ∧
      DrainAction.unregister ∉ pre ∧ DrainAction.closeStream ∉ pre ∧
      hasKey (RequestMulti ⟨[], []⟩ 4 "cl" ["pkg.A"] "pkg.A" "rid" ⟨1000, ⟨0, 0, 0, false⟩⟩
        ⟨true, 0, false, [⟨"rid", "", "", ⟨"pkg.A", true⟩⟩, ⟨"rid", "", "", ⟨"pkg.A", true⟩⟩]⟩
        ).state.responseChannels "rid" = false :=
  requestMulti_unregisters_exactly_at_close ⟨[], []⟩ 4 "cl" ["pkg.A"] "pkg.A" "rid"
    ⟨1000, ⟨0, 0, 0, false⟩⟩
    ⟨true, 0, false, [⟨"rid", "", "", ⟨"pkg.A", true⟩⟩, ⟨"rid", "", "", ⟨"pkg.A", true⟩⟩]⟩
    rfl (by decide)

/-- C6 (code bug): a well-formed response payload whose concrete type differs
from the expected response type does not become MalformedResponse — the
unchecked type assertion `r.(ResponseType)` panics. Expected type "pkg.A",
delivered payload of registered, well-formed type "pkg.B": the call panics. -/
theorem wrong_typed_response_panics :
    (RequestSingle ⟨[], []⟩ 4 "cl" ["pkg.A", "pkg.B"] "pkg.A" "rid" ⟨1000, ⟨0, 0, 0, false⟩⟩
        ⟨true, 0, false, [⟨"rid", "s1", 1⟩], false,
          AwaitEnd.gotResponse ⟨"rid", "", "", ⟨"pkg.B", true⟩⟩⟩).result = CallResult.panicked ∧
    handleResponse ["pkg.A", "pkg.B"] "pkg.A" ⟨"rid", "", "", ⟨"pkg.B", true⟩⟩ =
      CallResult.panicked := by
  decide

/-- C7 counterexample: the caller's context is cancelled before the per-call
deadline fires (`ctxDone false`), yet the call reports `ErrRequestTimedOut`,
whose code is DeadlineExceeded and not Canceled. -/
theorem caller_cancellation_reported_as_timeout :
    (RequestSingle ⟨[], []⟩ 4 "cl" ["pkg.A"] "pkg.A" "rid" ⟨1000, ⟨0, 0, 0, false⟩⟩
        ⟨true, 0, false, [⟨"rid", "s1", 1⟩], false, AwaitEnd.ctxDone false⟩).result =
      CallResult.failure ErrRequestTimedOut ∧
    ErrRequestTimedOut.code ≠ ErrorCode.canceled := by
  decide

/-- C7 amended: whenever the final await of `RequestSingle` ends with
`ctx.Done()` — whether because the caller's context was cancelled or because
the per-call deadline fired — the call reports `ErrRequestTimedOut`
(DeadlineExceeded); the code never distinguishes the two causes and never
produces a Canceled error. -/
theorem ctx_done_always_reports_timeout (cst : ClientState) (channelSize : ℕ) (cid : String)
    (registry : List String) (expected : String) (rid : String) (opts : RequestOpts)
    (env : SingleEnv) (b : Bool)
    (henc : env.encodeOk = true) (hpub : env.publishReqErr = false)
    (hsel : ∃ sid, selectServer opts.selectionOpts env.claims = Except.ok sid)
    (hpub2 : env.publishClaimErr = false) (hawait : env.await = AwaitEnd.ctxDone b) :
    (RequestSingle cst channelSize cid registry expected rid opts env).result =
      CallResult.failure ErrRequestTimedOut := by
  obtain ⟨sid, hsid⟩ := hsel
  unfold RequestSingle requestSingleCore
  simp [henc, hpub, hsid, hpub2, hawait]

/-- Witness for the amended C7 with the caller-cancellation cause. -/
theorem ctx_done_always_reports_timeout_witness :
    (RequestSingle ⟨[], []⟩ 4 "cl" ["pkg.A"] "pkg.A" "rid" ⟨1000, ⟨0, 0, 0, false⟩⟩
        ⟨true, 0, false, [⟨"rid", "s1", 1⟩], false, AwaitEnd.ctxDone false⟩).result =
      CallResult.failure ErrRequestTimedOut :=
  ctx_done_always_reports_timeout ⟨[], []⟩ 4 "cl" ["pkg.A"] "pkg.A" "rid"
    ⟨1000, ⟨0, 0, 0, false⟩⟩ ⟨true, 0, false, [⟨"rid", "s1", 1⟩], false, AwaitEnd.ctxDone false⟩
    false rfl rfl ⟨"s1", by decide⟩ rfl rfl

/-- C9 (code bug): the demultiplexer delivers into a registered sink with a
plain blocking channel send; when the sink is full the single routing
goroutine parks instead of dropping the envelope, stalling routing for every
other in-flight request. Concretely, a claim sink of capacity 1 that already
holds one claim blocks the demultiplexer on the next claim for that request. -/
theorem demux_blocks_on_full_sink :
    demuxStep ⟨[("r", ⟨1, [⟨"r", "s1", 1⟩]⟩)], []⟩ (DemuxEvent.claimArrival ⟨"r", "s2", 2⟩) =
      DemuxStep.blockedOnSink "r" := by
  decide

/-- C10: when the request payload fails to encode, both drivers stop before
any side effect: the correlation table is exactly as before the call, nothing
is published to the bus, and no drainer task is started. -/
theorem encode_failure_has_no_side_effects (cst cstm : ClientState) (n nm : ℕ)
    (cid cidm : String) (registry registrym : List String) (expected expectedm : String)
    (rid ridm : String) (opts optsm : RequestOpts) (env : SingleEnv) (envm : MultiEnv)
    (henc : env.encodeOk = false) (hencm : envm.encodeOk = false) :
    (RequestSingle cst n cid registry expected rid opts env).state = cst ∧
    (RequestSingle cst n cid registry expected rid opts env).published = [] ∧
    (RequestSingle cst n cid registry expected rid opts env).result =
      CallResult.failure ⟨ErrorCode.malformedRequest, "encode"⟩ ∧
    (RequestMulti cstm nm cidm registrym expectedm ridm optsm envm).state = cstm ∧
    (RequestMulti cstm nm cidm registrym expectedm ridm optsm envm).published = [] ∧
    (RequestMulti cstm nm cidm registrym expectedm ridm optsm envm).drainerStarted = false ∧
    (RequestMulti cstm nm cidm registrym expectedm ridm optsm envm).drainTrace = [] := by
  unfold RequestSingle requestSingleCore RequestMulti
  simp [henc, hencm]

/-- Witness for C10 at concrete failing-encode calls. -/
theorem encode_failure_has_no_side_effects_witness :
    (RequestSingle ⟨[], []⟩ 4 "cl" [] "pkg.A" "rid" ⟨1000, ⟨0, 0, 0, false⟩⟩
        ⟨false, 0, false, [], false, AwaitEnd.ctxDone true⟩).state = (⟨[], []⟩ : ClientState) ∧
    (RequestSingle ⟨[], []⟩ 4 "cl" [] "pkg.A" "rid" ⟨1000, ⟨0, 0, 0, false⟩⟩
        ⟨false, 0, false, [], false, AwaitEnd.ctxDone true⟩).published = [] ∧
    (RequestSingle ⟨[], []⟩ 4 "cl" [] "pkg.A" "rid" ⟨1000, ⟨0, 0, 0, false⟩⟩
        ⟨false, 0, false, [], false, AwaitEnd.ctxDone true⟩).result =
      CallResult.failure ⟨ErrorCode.malformedRequest, "encode"⟩ ∧
    (RequestMulti ⟨[], []⟩ 4 "cl" [] "pkg.A" "rid2" ⟨1000, ⟨0, 0, 0, false⟩⟩
        ⟨false, 0, false, []⟩).state = (⟨[], []⟩ : ClientState) ∧
    (RequestMulti ⟨[], []⟩ 4 "cl" [] "pkg.A" "rid2" ⟨1000, ⟨0, 0, 0, false⟩⟩
        ⟨false, 0, false, []⟩).published = [] ∧
    (RequestMulti ⟨[], []⟩ 4 "cl" [] "pkg.A" "rid2" ⟨1000, ⟨0, 0, 0, false⟩⟩
        ⟨false, 0, false, []⟩).drainerStarted = false ∧
    (RequestMulti ⟨[], []⟩ 4 "cl" [] "pkg.A" "rid2" ⟨1000, ⟨0, 0, 0, false⟩⟩
        ⟨false, 0, false, []⟩).drainTrace = [] :=
  encode_failure_has_no_side_effects ⟨[], []⟩ ⟨[], []⟩ 4 4 "cl" "cl" [] [] "pkg.A" "pkg.A"
    "rid" "rid2" ⟨1000, ⟨0, 0, 0, false⟩⟩ ⟨1000, ⟨0, 0, 0, false⟩⟩
    ⟨false, 0, false, [], false, AwaitEnd.ctxDone true⟩ ⟨false, 0, false, []⟩ rfl rfl

end Psrpc
